import Mathlib

/-!
Shallow embedding of `src/inference/opencv/reader/video_reader.py`.

The module under verification is the `VideoReader` class: a thin adapter over
an OpenCV-style video-capture backend.  We embed its observable behaviour:

* the backend handle (`cv2.VideoCapture`) is modelled by `Handle`: a constant
  `opened` flag (`isOpened()`), the sequence of results successive `read()`
  calls return (a pair of a success flag and an optional frame; positions past
  the end of the listed behaviour yield `(false, none)`, the end-of-stream
  result), the width/height/fps property values `get` reports, and whether the
  backend's own `release()` call raises;
* the adapter instance is `ReaderState`, one field per Python attribute the
  claims touch (`_name`, `_width`, `_height`, `_is_open`, `_video_stream`,
  `_fps`, `_frame_count`, `_batch_size`, `_dynamic_batch`, `_video_title`),
  plus `pos`, the number of backend reads consumed so far (the model's cursor
  into `Handle.reads`).  The purely cosmetic `_info` / `_seconds` / `_minutes`
  display fields are not given state of their own: no claim mentions them.
* Python floats (only `fps`) are modelled as rationals; frames (numpy arrays
  of shape `height × width × 3`) are modelled as flat lists of pixel samples,
  `np.zeros((h, w, 3))` becoming `List.replicate (h * w * 3) 0`.
* Methods that can raise return `Except PyErr _`.  `PyErr` names the raise
  sites: `invalidSource` is the `Exception` raised by the extension check,
  `sourceUnavailable` the one raised by `_post_init`, `typeError` the
  `TypeError` that `os.path.basename` raises on an `int` argument (and the one
  `np.zeros` raises on a `None` dimension), `nameError` the `NameError` from
  reading the loop variable `i` when a `for` loop over an empty range never
  bound it, `attributeError` the `AttributeError` from calling a method on
  `self._video_stream` when it is `None`, and `backendReleaseError` a failure
  of the backend's own `release()` call.
-/

namespace VideoReader

/-- A frame: flattened `height × width × 3` pixel buffer. -/
abbrev Frame := List Nat

/-- One all-zero batch slot: `np.zeros` content of shape `(h, w, 3)`. -/
def zeroFrame (h w : Nat) : Frame := List.replicate (h * w * 3) 0

/-- Model of a `cv2.VideoCapture` handle. -/
structure Handle where
  opened : Bool
  reads : List (Bool × Option Frame)
  propWidth : Nat
  propHeight : Nat
  propFps : ℚ
  releaseRaises : Bool
  deriving DecidableEq, Repr

/-- The result of the `k`-th `handle.read()` call (0-based); past the listed
behaviour the handle keeps returning the end-of-stream result `(false, none)`,
as OpenCV does on an exhausted file. -/
def Handle.readAt (h : Handle) (k : Nat) : Bool × Option Frame :=
  h.reads.getD k (false, none)

/-- Exceptions of the Python code, by raise site. -/
inductive PyErr where
  | invalidSource
  | sourceUnavailable
  | typeError
  | nameError
  | attributeError
  | backendReleaseError
  deriving DecidableEq, Repr

/-- The state of a `VideoReader` instance. -/
structure ReaderState where
  name : Option String
  width : Option Nat
  height : Option Nat
  isOpenFlag : Bool
  videoStream : Option Handle
  fps : ℚ
  frameCount : Nat
  batchSize : Option Nat
  dynamicBatch : Bool
  videoTitle : Option String
  pos : Nat
  deriving DecidableEq, Repr

/-- The attribute defaults `_init_props` sets at the top of `__init__`. -/
def init_props : ReaderState where
  name := none
  width := none
  height := none
  isOpenFlag := true
  videoStream := none
  fps := 10
  frameCount := 0
  batchSize := none
  dynamicBatch := false
  videoTitle := none
  pos := 0

/-- Python `str.split(sep)` for a one-character separator: `"" ↦ [""]`,
never returns an empty list. -/
def pySplit (sep : Char) : List Char → List (List Char)
  | [] => [[]]
  | c :: cs =>
    let rest := pySplit sep cs
    if c = sep then [] :: rest
    else
      match rest with
      | [] => [[c]]
      | p :: ps => (c :: p) :: ps

/-- Model of `os.path.basename`: the part of the path after the last `'/'`. -/
def basename (s : List Char) : List Char :=
  (pySplit '/' s).getLastD []

/-- The extension the validation looks at:
`os.path.basename(path).split('.')[-1].lower()`. -/
def extOf (s : String) : List Char :=
  ((pySplit '.' (basename s.data)).getLastD []).map Char.toLower

/-- The supported-extension set `VideoReader._EXTENSIONS`. -/
def _EXTENSIONS : List (List Char) :=
  ["avi".data, "mkv".data, "mp4".data, "mov".data, "wmv".data,
   "webm".data, "flv".data, "mpg".data]

/-- Python `str.isdigit`: nonempty and all characters digits. -/
def pyIsdigit (s : String) : Bool :=
  !s.data.isEmpty && s.data.all Char.isDigit

/-- Python `int(s)` on a digit string. -/
def digitsToNat (s : String) : Nat :=
  s.data.foldl (fun n c => n * 10 + (c.toNat - '0'.toNat)) 0

/-- A source descriptor: the `path : str | int` constructor argument. -/
inductive Descriptor where
  | str (s : String)
  | intD (n : Int)
  deriving DecidableEq, Repr

/-- The capture backend: which handle `cv2.VideoCapture` yields for a device
index and for a path. -/
structure Backend where
  openIndex : Nat → Handle
  openPath : String → Handle

/-- One observable call made to the backend during construction. -/
inductive BackendCall where
  | openIndex (n : Nat)
  | openPath (s : String)
  | setWidth (v : Nat)
  | setHeight (v : Nat)
  deriving DecidableEq, Repr

/-- The constructor `__init__` (including `_init_props` and `_post_init`).
Returns the
constructed state, or the exception together with the partially-initialised
state the raise leaves behind (what `__del__` would see); alongside, the list
of calls made to the backend, in order — an empty list means construction
failed before any backend open attempt. -/
def init (be : Backend) (path : Descriptor) (batch_size : Option Nat)
    (dynamic_batch : Bool) (width height : Option Nat) :
    Except (PyErr × ReaderState) ReaderState × List BackendCall :=
  let st := init_props
  match path with
  | .intD _ => (.error (.typeError, st), [])
  | .str s =>
    if extOf s ∉ _EXTENSIONS then
      (.error (.invalidSource, st), [])
    else
      let st := { st with
        name := some s
        batchSize := batch_size
        dynamicBatch := dynamic_batch
        width := width
        height := height }
      let isdig := pyIsdigit s
      let call := if isdig then BackendCall.openIndex (digitsToNat s)
                  else BackendCall.openPath s
      let h := if isdig then be.openIndex (digitsToNat s) else be.openPath s
      let st := { st with
        videoStream := some h
        videoTitle := some (if isdig then "Webcam" else s) }
      -- _post_init: `if not self.is_open(): raise`
      if ¬ (h.opened && st.isOpenFlag) then
        (.error (.sourceUnavailable, st), [call])
      else
        let wCalls := match width with
          | some v => [BackendCall.setWidth v]
          | none => []
        let hCalls := match height with
          | some v => [BackendCall.setHeight v]
          | none => []
        let st := { st with
          width := some (width.getD h.propWidth)
          height := some (height.getD h.propHeight)
          fps := h.propFps
          isOpenFlag := h.opened }
        (.ok st, call :: (wCalls ++ hCalls))

/-- Method `is_open`: `self._video_stream.isOpened() and self._is_open`
(raises `AttributeError` if `_video_stream` is `None`). -/
def is_open (st : ReaderState) : Except PyErr Bool :=
  match st.videoStream with
  | none => .error .attributeError
  | some h => .ok (h.opened && st.isOpenFlag)

/-- Method `read_frame`: one backend read; `frame_count` grows by 1 exactly when the
returned frame is not `None`; `_is_open` is set to the success flag. -/
def read_frame (st : ReaderState) : Except PyErr (Option Frame × ReaderState) :=
  match st.videoStream with
  | none => .error .attributeError
  | some h =>
    let r := h.readAt st.pos
    .ok (r.2, { st with
      pos := st.pos + 1
      frameCount := st.frameCount + (if r.2 = none then 0 else 1)
      isOpenFlag := r.1 })

/-- The `for i in range(batch_size)` loop of `read_batch`.  `i` is the value
of the Python loop variable on the current iteration and `remaining` the
number of iterations left.  Returns the value the name `i` holds after the
loop (`none` when the loop body never ran, i.e. `range(0)`, leaving `i`
unbound), the batch buffer, and the updated reader state. -/
def fill_loop : ReaderState → List Frame → Nat → Nat →
    Except PyErr (Option Int × List Frame × ReaderState)
  | st, batch, i, 0 =>
    .ok ((if i = 0 then none else some ((i : Int) - 1)), batch, st)
  | st, batch, i, r + 1 =>
    match read_frame st with
    | .error e => .error e
    | .ok (frame, st') =>
      match frame with
      | none => .ok (some ((i : Int) - 1), batch, st')
      | some f => fill_loop st' (batch.set i f) (i + 1) r

/-- Method `read_batch`: `None` when already closed, otherwise a zero-filled
buffer of `batch_size` slots filled by repeated `read_frame` calls; with
`dynamic_batch` the slice `batch[:i + 1]` is returned instead of the whole
buffer. -/
def read_batch (st : ReaderState) :
    Except PyErr (Option (List Frame) × ReaderState) :=
  match is_open st with
  | .error e => .error e
  | .ok op =>
    if op = false then
      .ok (none, st)
    else
      match st.batchSize, st.height, st.width with
      | some bs, some ht, some w =>
        match fill_loop st (List.replicate bs (zeroFrame ht w)) 0 bs with
        | .error e => .error e
        | .ok (iOpt, batch', st') =>
          if st.dynamicBatch then
            match iOpt with
            | none => .error .nameError
            | some i => .ok (some (batch'.take (i + 1).toNat), st')
          else
            .ok (some batch', st')
      | _, _, _ => .error .typeError

/-- The value a read-style method hands back to Python callers. -/
inductive PyValue where
  | noneV
  | frameV (f : Frame)
  | batchV (b : List Frame)
  deriving DecidableEq, Repr

/-- Method `read`: dispatch on whether a batch size was configured. -/
def read (st : ReaderState) : Except PyErr (PyValue × ReaderState) :=
  match st.batchSize with
  | none =>
    match read_frame st with
    | .error e => .error e
    | .ok (f, st') =>
      .ok (match f with | none => PyValue.noneV | some fr => PyValue.frameV fr, st')
  | some _ =>
    match read_batch st with
    | .error e => .error e
    | .ok (b, st') =>
      .ok (match b with | none => PyValue.noneV | some l => PyValue.batchV l, st')

/-- Method `release`: calls the backend's `release()` when a stream is held; a
backend failure is not caught, so it propagates.  The Python method mutates no
attribute, so the adapter state is unchanged. -/
def release (st : ReaderState) : Except PyErr Unit :=
  match st.videoStream with
  | none => .ok ()
  | some h => if h.releaseRaises then .error .backendReleaseError else .ok ()

/-- Repeated `release`: `n` calls in sequence (the state is not mutated by
`release`, so each call sees the same state). -/
def releaseN : Nat → ReaderState → Except PyErr Unit
  | 0, _ => .ok ()
  | n + 1, st =>
    match release st with
    | .error e => .error e
    | .ok _ => releaseN n st

/-- Iterator step `__next__`: `none` models the raised `StopIteration`. -/
def nextF (st : ReaderState) : Except PyErr (Option PyValue × ReaderState) :=
  match read st with
  | .error e => .error e
  | .ok (v, st') =>
    match v with
    | .noneV => .ok (none, st')
    | v => .ok (some v, st')

/-- The frames successive `handle.read()` calls starting at position `p`
deliver, up to `n` reads, cut off at the first read whose frame is `None`:
exactly the frames the `read_batch` loop collects. -/
def streamFrames (h : Handle) (p : Nat) : Nat → List Frame
  | 0 => []
  | n + 1 =>
    match (h.readAt p).2 with
    | none => []
    | some f => f :: streamFrames h (p + 1) n

/-- Sequential slot assignment: the effect of the `batch[i] = frame`
statements of the loop, one frame per slot from index `i` on. -/
def writeFrames (batch : List Frame) (i : Nat) : List Frame → List Frame
  | [] => batch
  | f :: fs => writeFrames (batch.set i f) (i + 1) fs

/-- The value the Python name `i` holds after the `read_batch` loop, given
the starting index `i`, the iteration count `r` and the number `c` of frames
collected: unbound for `range(0)`, else the last loop value, minus one when
the loop broke on an absent frame. -/
def fillI (i r c : Nat) : Option Int :=
  if r = 0 then (if i = 0 then none else some ((i : Int) - 1))
  else some ((i : Int) + c - 1)

/-- The handle `cv2.VideoCapture` yields inside `__init__` for a validated
string descriptor: digit strings open by device index, others by path. -/
def opened_handle (be : Backend) (s : String) : Handle :=
  if pyIsdigit s then be.openIndex (digitsToNat s) else be.openPath s

/-- The backend call `__init__` makes to open the stream for a validated
string descriptor. -/
def openCallOf (s : String) : BackendCall :=
  if pyIsdigit s then BackendCall.openIndex (digitsToNat s) else BackendCall.openPath s

/-- A backend at end of stream behaves permanently: once a read's frame is
absent, that read and every later one returns the end-of-stream result
`(false, none)`.  OpenCV file captures behave this way; the amended claim C2
is relative to this backend property. -/
def eosPermanent (h : Handle) : Prop :=
  ∀ k l, k ≤ l → (h.readAt k).2 = none → h.readAt l = (false, none)

/-- An adapter that has seen end of stream: the open flag is down and every
remaining backend read returns `(false, none)`. -/
def closedAtEos (st : ReaderState) (h : Handle) : Prop :=
  st.videoStream = some h ∧ st.isOpenFlag = false ∧
    ∀ k, st.pos ≤ k → h.readAt k = (false, none)

/-- A read entry point: `read_frame` or `read_batch`. -/
inductive ReadOp where
  | frame
  | batch
  deriving DecidableEq, Repr

/-- Run a sequence of reads, recording for each whether the Python return
value was a real result (`true`) or `None` (`false`). -/
def runReads : List ReadOp → ReaderState → Except PyErr (List Bool × ReaderState)
  | [], st => .ok ([], st)
  | .frame :: ops, st =>
    match read_frame st with
    | .error e => .error e
    | .ok (f, st') =>
      match runReads ops st' with
      | .error e => .error e
      | .ok (bs, st'') => .ok (f.isSome :: bs, st'')
  | .batch :: ops, st =>
    match read_batch st with
    | .error e => .error e
    | .ok (b, st') =>
      match runReads ops st' with
      | .error e => .error e
      | .ok (bs, st'') => .ok (b.isSome :: bs, st'')

/-- Every state-touching operation of the adapter, for invariants quantified
over "any operation". -/
inductive AdapterOp where
  | opReadFrame
  | opReadBatch
  | opRead
  | opNext
  | opRelease
  | opDel
  deriving DecidableEq, Repr

/-- The state transition of each adapter operation (`__del__` releases and
drops the stream reference). -/
def stepOp : AdapterOp → ReaderState → Except PyErr ReaderState
  | .opReadFrame, st =>
    match read_frame st with
    | .error e => .error e
    | .ok (_, st') => .ok st'
  | .opReadBatch, st =>
    match read_batch st with
    | .error e => .error e
    | .ok (_, st') => .ok st'
  | .opRead, st =>
    match read st with
    | .error e => .error e
    | .ok (_, st') => .ok st'
  | .opNext, st =>
    match nextF st with
    | .error e => .error e
    | .ok (_, st') => .ok st'
  | .opRelease, st =>
    match release st with
    | .error e => .error e
    | .ok _ => .ok st
  | .opDel, st =>
    match release st with
    | .error e => .error e
    | .ok _ => .ok { st with videoStream := none }

/-
Concrete fixtures used by counterexamples and witnesses.
-/

/-- A handle that reports one failed read and then recovers with a frame:
a flaky device, permitted by the backend contract of the spec. -/
def flakyHandle : Handle where
  opened := true
  reads := [(false, none), (true, some [7])]
  propWidth := 2
  propHeight := 2
  propFps := 30
  releaseRaises := false

/-- A freshly constructed adapter on `flakyHandle`. -/
def flakySt0 : ReaderState where
  name := some "a.mp4"
  width := some 2
  height := some 2
  isOpenFlag := true
  videoStream := some flakyHandle
  fps := 30
  frameCount := 0
  batchSize := none
  dynamicBatch := false
  videoTitle := some "a.mp4"
  pos := 0

/-- `flakySt0` after its first `read_frame` (which returned `None`). -/
def flakySt1 : ReaderState :=
  { flakySt0 with pos := 1, isOpenFlag := false }

/-- `flakySt1` after the next `read_frame` (which returned a frame again). -/
def flakySt2 : ReaderState :=
  { flakySt1 with pos := 2, frameCount := 1, isOpenFlag := true }

/-- A handle that is already at end of stream: every read is `(false, none)`. -/
def eosHandle : Handle where
  opened := true
  reads := []
  propWidth := 2
  propHeight := 2
  propFps := 30
  releaseRaises := false

/-- A constructed adapter on `eosHandle`, batch size 2, dynamic batching. -/
def eosSt0 : ReaderState where
  name := some "a.mp4"
  width := some 2
  height := some 2
  isOpenFlag := true
  videoStream := some eosHandle
  fps := 30
  frameCount := 0
  batchSize := some 2
  dynamicBatch := true
  videoTitle := some "a.mp4"
  pos := 0

/-- `eosSt0` after one absent `read_frame`. -/
def eosSt1 : ReaderState :=
  { eosSt0 with pos := 1, isOpenFlag := false }

/-- A handle whose own `release()` call raises. -/
def badReleaseHandle : Handle where
  opened := true
  reads := []
  propWidth := 1
  propHeight := 1
  propFps := 1
  releaseRaises := true

/-- An adapter holding `badReleaseHandle`. -/
def badReleaseSt : ReaderState :=
  { init_props with videoStream := some badReleaseHandle }

/-- A healthy two-frame backend used by witnesses: any path opens a stream
with frames `[1, 2, 3]` and `[4, 5, 6]` and then end of stream. -/
def demoBackend : Backend where
  openIndex := fun _ => ⟨true, [(true, some [1, 2, 3]), (true, some [4, 5, 6])], 640, 480, 30, false⟩
  openPath := fun _ => ⟨true, [(true, some [1, 2, 3]), (true, some [4, 5, 6])], 640, 480, 30, false⟩

/-- A backend whose every handle reports not-open. -/
def deadBackend : Backend where
  openIndex := fun _ => ⟨false, [], 0, 0, 0, false⟩
  openPath := fun _ => ⟨false, [], 0, 0, 0, false⟩

/-- The state `VideoReader(demoBackend, "a.mp4", batch_size=2, dynamic_batch=true)`
constructs. -/
def demoSt : ReaderState where
  name := some "a.mp4"
  width := some 640
  height := some 480
  isOpenFlag := true
  videoStream := some (demoBackend.openPath "a.mp4")
  fps := 30
  frameCount := 0
  batchSize := some 2
  dynamicBatch := true
  videoTitle := some "a.mp4"
  pos := 0

/-- `demoSt` with dynamic batching off and batch size 4. -/
def demoStPad : ReaderState :=
  { demoSt with batchSize := some 4, dynamicBatch := false }

/-- The state `VideoReader(demoBackend, "a.mp4", width=100)` constructs:
requested width kept, height mirrored from the backend. -/
def mirroredSt : ReaderState where
  name := some "a.mp4"
  width := some 100
  height := some 480
  isOpenFlag := true
  videoStream := some (demoBackend.openPath "a.mp4")
  fps := 30
  frameCount := 0
  batchSize := none
  dynamicBatch := false
  videoTitle := some "a.mp4"
  pos := 0

/-- The value of `self._video_title` after `__init__` line 53. -/
def titleOf (s : String) : Option String :=
  some (if pyIsdigit s = true then "Webcam" else s)

/-- The partial instance state at the `_post_init` raise site, for a
validated descriptor `s` whose handle reports not-open. -/
def validatedFailState (be : Backend) (s : String) (b : Option Nat) (d : Bool)
    (w hh : Option Nat) : ReaderState where
  name := some s
  width := w
  height := hh
  isOpenFlag := init_props.isOpenFlag
  videoStream := some (opened_handle be s)
  fps := init_props.fps
  frameCount := init_props.frameCount
  batchSize := b
  dynamicBatch := d
  videoTitle := titleOf s
  pos := init_props.pos

/-- The fully constructed instance state for a validated descriptor `s`
whose handle reports open. -/
def validatedOkState (be : Backend) (s : String) (b : Option Nat) (d : Bool)
    (w hh : Option Nat) : ReaderState where
  name := some s
  width := some (w.getD (opened_handle be s).propWidth)
  height := some (hh.getD (opened_handle be s).propHeight)
  isOpenFlag := (opened_handle be s).opened
  videoStream := some (opened_handle be s)
  fps := (opened_handle be s).propFps
  frameCount := init_props.frameCount
  batchSize := b
  dynamicBatch := d
  videoTitle := titleOf s
  pos := init_props.pos

/-- The Python value `read` hands back for a `read_batch` result. -/
def optBatchVal : Option (List Frame) → PyValue
  | none => .noneV
  | some l => .batchV l

/-- The Python value `read` hands back for a `read_frame` result. -/
def optFrameVal : Option Frame → PyValue
  | none => .noneV
  | some f => .frameV f

/-- The `__next__` outcome for a `read` result: `none` models the raised
`StopIteration`. -/
def pyNextVal : PyValue → Option PyValue
  | .noneV => none
  | v => some v

/-- The `set` calls `_post_init` issues for caller-supplied width/height. -/
def setCalls (w hh : Option Nat) : List BackendCall :=
  (match w with
   | some v => [BackendCall.setWidth v]
   | none => []) ++
  match hh with
  | some v => [BackendCall.setHeight v]
  | none => []

/-
Helper lemmas.
-/

/-- Characterization of `__init__` once the extension check has passed: the
backend is opened, and the outcome depends only on whether the handle
reports open. -/
theorem init_validated (be : Backend) (s : String) (b : Option Nat) (d : Bool)
    (w hh : Option Nat) (hgood : extOf s ∈ _EXTENSIONS) :
    init be (.str s) b d w hh =
      if ¬((opened_handle be s).opened && init_props.isOpenFlag) = true then
        (.error (.sourceUnavailable, validatedFailState be s b d w hh),
         [openCallOf s])
      else
        (.ok (validatedOkState be s b d w hh), openCallOf s :: setCalls w hh) := by
  have hneg : ¬ extOf s ∉ _EXTENSIONS := by simp [hgood]
  simp only [init]
  rw [if_neg hneg]
  exact rfl

theorem release_ok_of_no_raise (st : ReaderState)
    (h : ∀ hd, st.videoStream = some hd → hd.releaseRaises = false) :
    release st = .ok () := by
  cases hv : st.videoStream with
  | none => simp [release, hv]
  | some hd => simp [release, hv, h hd hv]

theorem releaseN_ok_of_no_raise (st : ReaderState)
    (h : ∀ hd, st.videoStream = some hd → hd.releaseRaises = false) :
    ∀ n, releaseN n st = .ok () := by
  intro n
  induction n with
  | zero => rfl
  | succ n ih =>
    rw [releaseN, release_ok_of_no_raise st h]
    exact ih

theorem streamFrames_length_le (h : Handle) : ∀ (n p : Nat), (streamFrames h p n).length ≤ n
  | 0, _ => Nat.le_refl 0
  | n + 1, p => by
    rw [streamFrames]
    cases hr : (h.readAt p).2 with
    | none => simp
    | some f =>
      simp only [List.length_cons]
      exact Nat.succ_le_succ (streamFrames_length_le h n (p + 1))

theorem fillI_step (i r c : Nat) (hc : r = 0 → c = 0) :
    fillI i (r + 1) (c + 1) = fillI (i + 1) r c := by
  rcases Nat.eq_zero_or_pos r with hr | hr
  · subst hr
    rw [hc rfl]
    simp [fillI]
  · simp only [fillI, Option.some.injEq, if_neg (by omega : ¬ r + 1 = 0),
      if_neg (by omega : ¬ r = 0)]
    push_cast
    omega

theorem take_succ_set : ∀ (l : List Frame) (i : Nat) (f : Frame), i < l.length →
    (l.set i f).take (i + 1) = l.take i ++ [f]
  | [], i, f, hlt => absurd hlt (by simp)
  | x :: xs, 0, f, _ => rfl
  | x :: xs, i + 1, f, hlt => by
    show x :: (xs.set i f).take (i + 1) = x :: (xs.take i ++ [f])
    exact congrArg (x :: ·) (take_succ_set xs i f (by simpa using hlt))

theorem writeFrames_eq : ∀ (fs batch : List Frame) (i : Nat),
    i + fs.length ≤ batch.length →
    writeFrames batch i fs = batch.take i ++ fs ++ batch.drop (i + fs.length)
  | [], batch, i, _ => by
    simp [writeFrames]
  | f :: fs, batch, i, hle => by
    have hlen : fs.length + 1 = (f :: fs).length := rfl
    have hi : i < batch.length := by
      simp only [List.length_cons] at hle
      omega
    rw [writeFrames,
      writeFrames_eq fs (batch.set i f) (i + 1) (by simp only [List.length_set]; simp only [List.length_cons] at hle; omega)]
    rw [take_succ_set batch i f hi]
    rw [List.drop_set]
    rw [if_pos (by omega : i < i + 1 + fs.length)]
    simp only [List.length_cons, List.append_assoc, List.singleton_append]
    rw [show i + (fs.length + 1) = i + 1 + fs.length by omega]

theorem fill_loop_none (st st' : ReaderState) (batch : List Frame) (i r : Nat)
    (hread : read_frame st = .ok (none, st')) :
    fill_loop st batch i (r + 1) = .ok (some ((i : Int) - 1), batch, st') := by
  rw [fill_loop, hread]

theorem fill_loop_some (st st' : ReaderState) (batch : List Frame) (i r : Nat) (f : Frame)
    (hread : read_frame st = .ok (some f, st')) :
    fill_loop st batch i (r + 1) = fill_loop st' (batch.set i f) (i + 1) r := by
  rw [fill_loop, hread]

/-- Full characterization of the `read_batch` loop: the batch buffer receives
exactly the frames the backend streams until the first absent read (capped at
the iteration count), the final Python `i` is as `fillI` says, `frame_count`
grows by the number of frames collected, and the other attributes are
untouched. -/
theorem fill_loop_spec (h : Handle) :
    ∀ (r : Nat) (st : ReaderState) (batch : List Frame) (i : Nat),
    st.videoStream = some h →
    ∃ st', fill_loop st batch i r =
        .ok (fillI i r (streamFrames h st.pos r).length,
             writeFrames batch i (streamFrames h st.pos r), st') ∧
      st'.videoStream = some h ∧
      st'.frameCount = st.frameCount + (streamFrames h st.pos r).length ∧
      st'.width = st.width ∧ st'.height = st.height ∧
      st'.batchSize = st.batchSize ∧ st'.dynamicBatch = st.dynamicBatch ∧
      ((streamFrames h st.pos r).length < r →
        st'.isOpenFlag = (h.readAt (st.pos + (streamFrames h st.pos r).length)).1) := by
  intro r
  induction r with
  | zero =>
    intro st batch i hs
    exact ⟨st, rfl, hs, rfl, rfl, rfl, rfl, rfl, by omega⟩
  | succ r ih =>
    intro st batch i hs
    have hread : read_frame st = .ok ((h.readAt st.pos).2,
        { st with
            pos := st.pos + 1
            frameCount := st.frameCount + (if (h.readAt st.pos).2 = none then 0 else 1)
            isOpenFlag := (h.readAt st.pos).1 }) := by
      rw [read_frame, hs]
    cases hr2 : (h.readAt st.pos).2 with
    | none =>
      rw [hr2] at hread
      have hsf : streamFrames h st.pos (r + 1) = [] := by
        rw [streamFrames, hr2]
      refine ⟨{ st with
          pos := st.pos + 1
          frameCount := st.frameCount + (if (none : Option Frame) = none then 0 else 1)
          isOpenFlag := (h.readAt st.pos).1 }, ?_, hs, ?_, rfl, rfl, rfl, rfl, ?_⟩
      · rw [fill_loop_none st _ batch i r hread, hsf]
        simp [fillI, writeFrames]
      · rw [hsf]
        simp
      · rw [hsf]
        intro _
        rfl
    | some f =>
      rw [hr2] at hread
      have hsf : streamFrames h st.pos (r + 1) = f :: streamFrames h (st.pos + 1) r := by
        rw [streamFrames, hr2]
      obtain ⟨st2, heq, hsv, hfc, hw, hht, hbs, hdy, hflag⟩ :=
        ih { st with
              pos := st.pos + 1
              frameCount := st.frameCount + (if (some f : Option Frame) = none then 0 else 1)
              isOpenFlag := (h.readAt st.pos).1 } (batch.set i f) (i + 1) hs
      have hfc' : st2.frameCount =
          st.frameCount + 1 + (streamFrames h (st.pos + 1) r).length := hfc
      have hflag' : (streamFrames h (st.pos + 1) r).length < r →
          st2.isOpenFlag =
            (h.readAt (st.pos + 1 + (streamFrames h (st.pos + 1) r).length)).1 := hflag
      refine ⟨st2, ?_, hsv, ?_, hw, hht, hbs, hdy, ?_⟩
      · rw [fill_loop_some st _ batch i r f hread, heq, hsf]
        simp only [List.length_cons]
        rw [writeFrames, fillI_step i r _ (fun hr0 => by subst hr0; rfl)]
      · rw [hsf]
        simp only [List.length_cons]
        rw [show st.frameCount + ((streamFrames h (st.pos + 1) r).length + 1) =
          st.frameCount + 1 + (streamFrames h (st.pos + 1) r).length by omega]
        exact hfc'
      · rw [hsf]
        simp only [List.length_cons]
        intro hlt
        rw [show st.pos + ((streamFrames h (st.pos + 1) r).length + 1) =
          st.pos + 1 + (streamFrames h (st.pos + 1) r).length by omega]
        exact hflag' (by omega)

theorem streamFrames_eq_nil (h : Handle) (p : Nat) :
    ∀ n, (h.readAt p).2 = none → streamFrames h p n = []
  | 0, _ => rfl
  | n + 1, hn => by rw [streamFrames, hn]

theorem read_batch_closed (st : ReaderState) (hop : is_open st = .ok false) :
    read_batch st = .ok (none, st) := by
  simp only [read_batch, hop]
  simp

theorem read_batch_dynamic (st st' : ReaderState) (bs ht w : Nat) (iv : Int)
    (batch' : List Frame)
    (hop : is_open st = .ok true) (hbs : st.batchSize = some bs)
    (hht : st.height = some ht) (hw : st.width = some w)
    (hdyn : st.dynamicBatch = true)
    (hfill : fill_loop st (List.replicate bs (zeroFrame ht w)) 0 bs =
      .ok (some iv, batch', st')) :
    read_batch st = .ok (some (batch'.take (iv + 1).toNat), st') := by
  simp only [read_batch, hop, hbs, hht, hw, hdyn, hfill]
  simp

theorem read_batch_static (st st' : ReaderState) (bs ht w : Nat)
    (iOpt : Option Int) (batch' : List Frame)
    (hop : is_open st = .ok true) (hbs : st.batchSize = some bs)
    (hht : st.height = some ht) (hw : st.width = some w)
    (hdyn : st.dynamicBatch = false)
    (hfill : fill_loop st (List.replicate bs (zeroFrame ht w)) 0 bs =
      .ok (iOpt, batch', st')) :
    read_batch st = .ok (some batch', st') := by
  simp only [read_batch, hop, hbs, hht, hw, hdyn, hfill]
  simp

theorem read_of_batch (st st' : ReaderState) (bs : Nat) (b : Option (List Frame))
    (hbs : st.batchSize = some bs) (hrb : read_batch st = .ok (b, st')) :
    read st = .ok (optBatchVal b, st') := by
  cases b <;> simp only [read, hbs, hrb, optBatchVal]

theorem nextF_of_read (st st' : ReaderState) (v : PyValue)
    (hv : read st = .ok (v, st')) :
    nextF st = .ok (pyNextVal v, st') := by
  cases v <;> simp only [nextF, hv, pyNextVal]

/-
Claim theorems.
-/

/-- C1 (code evaluation at the failing input): the extension validation runs
before the numeric routing, so a device-index descriptor never reaches the
backend open step — the digit string `"0"` is rejected by the extension check
(`invalidSource`), and the integer `0` (indeed any integer) makes
`os.path.basename` raise a `TypeError`; in both cases the backend call trace
is empty, whatever the backend. -/
theorem c1_numeric_descriptor_rejected (be : Backend) (b : Option Nat) (d : Bool)
    (w hh : Option Nat) (n : Int) :
    init be (.str "0") b d w hh = (.error (.invalidSource, init_props), []) ∧
    init be (.intD n) b d w hh = (.error (.typeError, init_props), []) :=
  ⟨rfl, rfl⟩

/-- C4 counterexample: on an adapter holding a handle whose own `release()`
raises, `release` propagates the failure instead of swallowing it — `release`
has no exception handler. -/
theorem c4_counterexample :
    release badReleaseSt = .error .backendReleaseError := rfl

/-- C4 (amended): `release` leaves the adapter state untouched, so it may be
called any number of times; it completes without raising whenever no backend
handle is held (in particular after a construction that failed before the
open step, e.g. at extension validation) or the held handle's `release()`
does not raise; but a failure of the backend's own `release()` call
propagates rather than being swallowed. -/
theorem c4_amended_release :
    (∀ st, (∀ hd, st.videoStream = some hd → hd.releaseRaises = false) →
      ∀ n, releaseN n st = .ok ()) ∧
    (∀ be p b d w hh e stp tr, init be p b d w hh = (.error (e, stp), tr) →
      e ≠ PyErr.sourceUnavailable → ∀ n, releaseN n stp = .ok ()) ∧
    (∀ st hd, st.videoStream = some hd → hd.releaseRaises = true →
      release st = .error .backendReleaseError) := by
  refine ⟨releaseN_ok_of_no_raise, ?_, ?_⟩
  · intro be p b d w hh e stp tr hinit hne
    have hstream : stp.videoStream = none := by
      cases p with
      | intD n =>
        simp only [init, Prod.mk.injEq, Except.error.injEq] at hinit
        rw [← hinit.1.2]
        rfl
      | str s =>
        by_cases hgood : extOf s ∈ _EXTENSIONS
        · rw [init_validated be s b d w hh hgood] at hinit
          split at hinit
          · simp only [Prod.mk.injEq, Except.error.injEq] at hinit
            exact absurd hinit.1.1.symm hne
          · simp only [Prod.mk.injEq] at hinit
            exact Except.noConfusion hinit.1
        · have : init be (.str s) b d w hh = (.error (.invalidSource, init_props), []) := by
            simp only [init]
            rw [if_pos hgood]
          rw [this] at hinit
          simp only [Prod.mk.injEq, Except.error.injEq] at hinit
          rw [← hinit.1.2]
          rfl
    exact releaseN_ok_of_no_raise stp (fun hd hh' => by rw [hstream] at hh'; cases hh')
  · intro st hd hs hr
    simp [release, hs, hr]

/-- C5: construction raises the invalid-extension error, before any backend
open attempt (empty backend call trace), exactly when the descriptor string's
extension — the lower-cased last dot-component of its basename — is not in
`_EXTENSIONS`; when the extension is supported, validation passes and the
very next backend interaction is the open call. -/
theorem c5_extension_validation (be : Backend) (s : String) (b : Option Nat)
    (d : Bool) (w hh : Option Nat) :
    (extOf s ∉ _EXTENSIONS →
      init be (.str s) b d w hh = (.error (.invalidSource, init_props), [])) ∧
    (extOf s ∈ _EXTENSIONS →
      ∃ rest, (init be (.str s) b d w hh).2 = openCallOf s :: rest) := by
  constructor
  · intro hbad
    simp only [init]
    rw [if_pos hbad]
  · intro hgood
    rw [init_validated be s b d w hh hgood]
    split
    · exact ⟨[], rfl⟩
    · exact ⟨setCalls w hh, rfl⟩

/-- C9: when the freshly opened handle reports not-open, construction fails
with the source-unavailable error; the backend call trace is exactly the open
call, so the failure precedes any width/height property mirroring. -/
theorem c9_source_unavailable (be : Backend) (s : String) (b : Option Nat)
    (d : Bool) (w hh : Option Nat)
    (hext : extOf s ∈ _EXTENSIONS)
    (hdead : (opened_handle be s).opened = false) :
    ∃ stp, init be (.str s) b d w hh = (.error (.sourceUnavailable, stp), [openCallOf s]) := by
  rw [init_validated be s b d w hh, if_pos (by simp [hdead])]
  · exact ⟨validatedFailState be s b d w hh, rfl⟩
  · exact hext

/-- C9 witness: a concrete backend whose handle reports not-open makes
construction of `VideoReader("clip.mp4")` fail with the source-unavailable
error right after the open call. -/
theorem c9_witness :
    ∃ stp, init deadBackend (.str "clip.mp4") none false none none =
      (.error (.sourceUnavailable, stp), [openCallOf "clip.mp4"]) :=
  c9_source_unavailable deadBackend "clip.mp4" none false none none (by decide) rfl

/-- C5 witness: `"notes.txt"` is rejected with no backend call, while
`"clip.mp4"` passes validation and the first backend interaction is the open
call. -/
theorem c5_witness :
    init demoBackend (.str "notes.txt") none false none none =
      (.error (.invalidSource, init_props), []) ∧
    ∃ rest, (init demoBackend (.str "clip.mp4") none false none none).2 =
      openCallOf "clip.mp4" :: rest :=
  ⟨(c5_extension_validation demoBackend "notes.txt" none false none none).1 (by decide),
   (c5_extension_validation demoBackend "clip.mp4" none false none none).2 (by decide)⟩

/-- C4 witness: three releases in a row succeed on a handleless state, and a
raising backend release propagates on a concrete adapter. -/
theorem c4_witness :
    releaseN 3 init_props = .ok () ∧
    release badReleaseSt = .error .backendReleaseError :=
  ⟨c4_amended_release.1 init_props (fun hd hv => by simp [init_props] at hv) 3,
   c4_amended_release.2.2 badReleaseSt badReleaseHandle rfl rfl⟩

/-- C8: when width/height are supplied at construction the adapter reports
exactly the requested values, whatever the backend negotiated; when they are
not supplied it reports the values the opened handle yields. -/
theorem c8_width_height_mirroring (be : Backend) (s : String) (b : Option Nat)
    (d : Bool) (w hh : Option Nat) (st : ReaderState) (tr : List BackendCall)
    (hinit : init be (.str s) b d w hh = (.ok st, tr)) :
    (∀ v, w = some v → st.width = some v) ∧
    (w = none → st.width = some (opened_handle be s).propWidth) ∧
    (∀ v, hh = some v → st.height = some v) ∧
    (hh = none → st.height = some (opened_handle be s).propHeight) := by
  by_cases hgood : extOf s ∈ _EXTENSIONS
  · rw [init_validated be s b d w hh hgood] at hinit
    split at hinit
    · simp only [Prod.mk.injEq] at hinit
      exact Except.noConfusion hinit.1
    · simp only [Prod.mk.injEq, Except.ok.injEq] at hinit
      obtain ⟨hst, -⟩ := hinit
      subst hst
      refine ⟨?_, ?_, ?_, ?_⟩
      · rintro v rfl
        rfl
      · rintro rfl
        rfl
      · rintro v rfl
        rfl
      · rintro rfl
        rfl
  · have hbad : init be (.str s) b d w hh = (.error (.invalidSource, init_props), []) := by
      simp only [init]
      rw [if_pos hgood]
    rw [hbad] at hinit
    simp only [Prod.mk.injEq] at hinit
    exact Except.noConfusion hinit.1

/-- C3: on an open adapter with dynamic batching, `read_batch` returns the
frames the backend actually delivered before the first absent read — no
padding, length between 0 and `batch_size` (witnessed by `frame_count`
growing by exactly that length) — and when the very first read of the batch
is absent the returned buffer is exactly the empty one. -/
theorem c3_dynamic_batch_length (st : ReaderState) (h : Handle) (bs ht w : Nat)
    (hs : st.videoStream = some h) (hop : is_open st = .ok true)
    (hbs : st.batchSize = some bs) (hpos : 1 ≤ bs)
    (hdyn : st.dynamicBatch = true) (hht : st.height = some ht)
    (hw : st.width = some w) :
    ∃ st', read_batch st = .ok (some (streamFrames h st.pos bs), st') ∧
      (streamFrames h st.pos bs).length ≤ bs ∧
      st'.frameCount = st.frameCount + (streamFrames h st.pos bs).length ∧
      ((h.readAt st.pos).2 = none → streamFrames h st.pos bs = []) := by
  have hcle : (streamFrames h st.pos bs).length ≤ bs :=
    streamFrames_length_le h bs st.pos
  obtain ⟨st', heq, hsv, hfc, hw2, hht2, hbs2, hdy2, hflag⟩ :=
    fill_loop_spec h bs st (List.replicate bs (zeroFrame ht w)) 0 hs
  have hfi : fillI 0 bs (streamFrames h st.pos bs).length =
      some (((streamFrames h st.pos bs).length : Int) - 1) := by
    simp [fillI, show ¬ bs = 0 by omega]
  rw [hfi] at heq
  have hrb := read_batch_dynamic st st' bs ht w _ _ hop hbs hht hw hdyn heq
  have htn : ((((streamFrames h st.pos bs).length : Int) - 1) + 1).toNat =
      (streamFrames h st.pos bs).length := by omega
  rw [htn] at hrb
  have hwf : (writeFrames (List.replicate bs (zeroFrame ht w)) 0
        (streamFrames h st.pos bs)).take (streamFrames h st.pos bs).length =
      streamFrames h st.pos bs := by
    rw [writeFrames_eq _ _ _ (by simpa using hcle)]
    simp [List.take_left]
  rw [hwf] at hrb
  exact ⟨st', hrb, hcle, hfc, fun hn => streamFrames_eq_nil h st.pos bs hn⟩

/-- C3 witness: the demo adapter (two frames available, batch size 2,
dynamic) returns exactly the two streamed frames. -/
theorem c3_witness :
    ∃ st', read_batch demoSt =
        .ok (some (streamFrames (demoBackend.openPath "a.mp4") demoSt.pos 2), st') ∧
      (streamFrames (demoBackend.openPath "a.mp4") demoSt.pos 2).length ≤ 2 ∧
      st'.frameCount = demoSt.frameCount +
        (streamFrames (demoBackend.openPath "a.mp4") demoSt.pos 2).length ∧
      (((demoBackend.openPath "a.mp4").readAt demoSt.pos).2 = none →
        streamFrames (demoBackend.openPath "a.mp4") demoSt.pos 2 = []) :=
  c3_dynamic_batch_length demoSt (demoBackend.openPath "a.mp4") 2 480 640
    rfl rfl rfl (by omega) rfl rfl rfl

/-- C7: on an open adapter with dynamic batching off, `read_batch` returns a
buffer of exactly `batch_size` entries — the streamed frames followed by
all-zero padding entries of shape `height × width × 3` — however many real
frames arrived before the stream ended. -/
theorem c7_static_batch_padding (st : ReaderState) (h : Handle) (bs ht w : Nat)
    (hs : st.videoStream = some h) (hop : is_open st = .ok true)
    (hbs : st.batchSize = some bs) (hdyn : st.dynamicBatch = false)
    (hht : st.height = some ht) (hw : st.width = some w) :
    ∃ st', read_batch st = .ok (some (streamFrames h st.pos bs ++
        List.replicate (bs - (streamFrames h st.pos bs).length) (zeroFrame ht w)), st') ∧
      (streamFrames h st.pos bs ++
        List.replicate (bs - (streamFrames h st.pos bs).length) (zeroFrame ht w)).length
        = bs ∧
      (zeroFrame ht w).length = ht * w * 3 := by
  have hcle : (streamFrames h st.pos bs).length ≤ bs :=
    streamFrames_length_le h bs st.pos
  obtain ⟨st', heq, hsv, hfc, hw2, hht2, hbs2, hdy2, hflag⟩ :=
    fill_loop_spec h bs st (List.replicate bs (zeroFrame ht w)) 0 hs
  have hwf : writeFrames (List.replicate bs (zeroFrame ht w)) 0
        (streamFrames h st.pos bs) =
      streamFrames h st.pos bs ++
        List.replicate (bs - (streamFrames h st.pos bs).length) (zeroFrame ht w) := by
    rw [writeFrames_eq _ _ _ (by simpa using hcle)]
    simp [List.drop_replicate]
  rw [hwf] at heq
  refine ⟨st', read_batch_static st st' bs ht w _ _ hop hbs hht hw hdyn heq, ?_, ?_⟩
  · simp only [List.length_append, List.length_replicate]
    omega
  · simp [zeroFrame]

/-- C7 witness: the demo adapter with batch size 4 and dynamic batching off
returns the two streamed frames padded with two all-zero entries. -/
theorem c7_witness :
    ∃ st', read_batch demoStPad =
        .ok (some (streamFrames (demoBackend.openPath "a.mp4") demoStPad.pos 4 ++
          List.replicate
            (4 - (streamFrames (demoBackend.openPath "a.mp4") demoStPad.pos 4).length)
            (zeroFrame 480 640)), st') ∧
      (streamFrames (demoBackend.openPath "a.mp4") demoStPad.pos 4 ++
        List.replicate
          (4 - (streamFrames (demoBackend.openPath "a.mp4") demoStPad.pos 4).length)
          (zeroFrame 480 640)).length = 4 ∧
      (zeroFrame 480 640).length = 480 * 640 * 3 :=
  c7_static_batch_padding demoStPad (demoBackend.openPath "a.mp4") 4 480 640
    rfl rfl rfl rfl rfl rfl

/-- C10: on an open dynamic adapter whose backend yields no frame on the
first read of the batch, `read_batch` returns a present empty batch (length
0, not the absent value) and only the next call returns absent; accordingly
`__next__` yields the empty batch once and raises `StopIteration` only on
the following call. -/
theorem c10_empty_batch_before_absent (st : ReaderState) (h : Handle)
    (bs ht w : Nat)
    (hs : st.videoStream = some h) (hop : is_open st = .ok true)
    (hbs : st.batchSize = some bs) (hpos : 1 ≤ bs)
    (hdyn : st.dynamicBatch = true) (hht : st.height = some ht)
    (hw : st.width = some w)
    (hnone : h.readAt st.pos = (false, none)) :
    ∃ st', read_batch st = .ok (some [], st') ∧
      read_batch st' = .ok (none, st') ∧
      nextF st = .ok (some (PyValue.batchV []), st') ∧
      nextF st' = .ok (none, st') := by
  obtain ⟨k, rfl⟩ : ∃ k, bs = k + 1 := ⟨bs - 1, by omega⟩
  have hread0 : read_frame st = .ok ((h.readAt st.pos).2,
      { st with
          pos := st.pos + 1
          frameCount := st.frameCount + (if (h.readAt st.pos).2 = none then 0 else 1)
          isOpenFlag := (h.readAt st.pos).1 }) := by
    rw [read_frame, hs]
  rw [hnone] at hread0
  have hread : read_frame st = .ok (none,
      { st with pos := st.pos + 1, frameCount := st.frameCount, isOpenFlag := false }) :=
    hread0
  have hfl := fill_loop_none st _ (List.replicate (k + 1) (zeroFrame ht w)) 0 k hread
  have hrb := read_batch_dynamic st _ (k + 1) ht w _ _ hop hbs hht hw hdyn hfl
  have htn : (((0 : Nat) : Int) - 1 + 1).toNat = 0 := rfl
  rw [htn, List.take_zero] at hrb
  set st1 : ReaderState :=
    { st with pos := st.pos + 1, frameCount := st.frameCount, isOpenFlag := false } with hst1
  have hop1 : is_open st1 = .ok false := by
    simp [is_open, hst1, hs]
  have hrb1 := read_batch_closed st1 hop1
  refine ⟨st1, hrb, hrb1, ?_, ?_⟩
  · have := nextF_of_read st st1 (PyValue.batchV [])
      (read_of_batch st st1 (k + 1) (some []) hbs hrb)
    simpa [pyNextVal] using this
  · have hbs1 : st1.batchSize = some (k + 1) := hbs
    have := nextF_of_read st1 st1 PyValue.noneV
      (read_of_batch st1 st1 (k + 1) none hbs1 hrb1)
    simpa [pyNextVal] using this

/-- C10 witness: an adapter at end of stream (batch size 2, dynamic) yields
one empty batch, then the absent value; the iterator yields the empty batch
and stops only on the following call. -/
theorem c10_witness :
    ∃ st', read_batch eosSt0 = .ok (some [], st') ∧
      read_batch st' = .ok (none, st') ∧
      nextF eosSt0 = .ok (some (PyValue.batchV []), st') ∧
      nextF st' = .ok (none, st') :=
  c10_empty_batch_before_absent eosSt0 eosHandle 2 2 2
    rfl rfl rfl (by omega) rfl rfl rfl rfl

theorem is_open_false_of_closed (st : ReaderState) (h : Handle)
    (hc : closedAtEos st h) : is_open st = .ok false := by
  obtain ⟨hs, hflag, -⟩ := hc
  simp [is_open, hs, hflag]

theorem closedAtEos_step (st : ReaderState) (h : Handle) (hc : closedAtEos st h) :
    ∃ st', read_frame st = .ok (none, st') ∧
      st'.frameCount = st.frameCount ∧ closedAtEos st' h := by
  obtain ⟨hs, hflag, heos⟩ := hc
  have h0 : h.readAt st.pos = (false, none) := heos st.pos (Nat.le_refl _)
  have hread0 : read_frame st = .ok ((h.readAt st.pos).2,
      { st with
          pos := st.pos + 1
          frameCount := st.frameCount + (if (h.readAt st.pos).2 = none then 0 else 1)
          isOpenFlag := (h.readAt st.pos).1 }) := by
    rw [read_frame, hs]
  rw [h0] at hread0
  exact ⟨{ st with pos := st.pos + 1, frameCount := st.frameCount, isOpenFlag := false },
    hread0, rfl, hs, rfl, fun k hk => heos k (Nat.le_trans (Nat.le_succ st.pos) hk)⟩

theorem runReads_closed (h : Handle) : ∀ (ops : List ReadOp) (st : ReaderState),
    closedAtEos st h →
    ∃ st2, runReads ops st = .ok (List.replicate ops.length false, st2) ∧
      st2.frameCount = st.frameCount ∧ closedAtEos st2 h := by
  intro ops
  induction ops with
  | nil => exact fun st hc => ⟨st, rfl, rfl, hc⟩
  | cons op ops ih =>
    intro st hc
    cases op with
    | frame =>
      obtain ⟨st1, hrf, hfc1, hc1⟩ := closedAtEos_step st h hc
      obtain ⟨st2, hrr, hfc2, hc2⟩ := ih st1 hc1
      refine ⟨st2, ?_, by rw [hfc2, hfc1], hc2⟩
      simp only [runReads, hrf, hrr, List.length_cons, List.replicate_succ]
      simp
    | batch =>
      have hrb := read_batch_closed st (is_open_false_of_closed st h hc)
      obtain ⟨st2, hrr, hfc2, hc2⟩ := ih st hc
      refine ⟨st2, ?_, hfc2, hc2⟩
      simp only [runReads, hrb, hrr, List.length_cons, List.replicate_succ]
      simp

/-- C2 counterexample: the adapter does not latch closed.  On a backend that
fails one read and then delivers a frame again (permitted by the backend
read contract), the first `read_frame` returns absent and `is_open` becomes
false, yet the very next `read_frame` returns a frame, increments
`frame_count`, and `is_open` is true again — refuting "every subsequent read
returns an absent value and leaves frame_count unchanged; once the open flag
becomes false it never becomes true again". -/
theorem c2_counterexample :
    read_frame flakySt0 = .ok (none, flakySt1) ∧
    is_open flakySt1 = .ok false ∧
    read_frame flakySt1 = .ok (some [7], flakySt2) ∧
    flakySt2.frameCount = flakySt1.frameCount + 1 ∧
    is_open flakySt2 = .ok true :=
  ⟨rfl, rfl, rfl, rfl, rfl⟩

/-- C2 (amended): relative to a backend at permanent end of stream — once a
read's frame is absent, that and every later backend read returns the
end-of-stream result, as OpenCV file captures do — the claim holds: after a
`read_frame` returns absent, `is_open` is false, and every subsequent
sequence of reads (frame or batch) returns only absent values, leaves
`frame_count` unchanged, and `is_open` stays false. -/
theorem c2_amended_eos_closure (st st1 : ReaderState) (h : Handle)
    (hs : st.videoStream = some h) (heos : eosPermanent h)
    (habs : read_frame st = .ok (none, st1)) :
    is_open st1 = .ok false ∧
    ∀ ops : List ReadOp, ∃ st2,
      runReads ops st1 = .ok (List.replicate ops.length false, st2) ∧
      st2.frameCount = st1.frameCount ∧ is_open st2 = .ok false := by
  have hread0 : read_frame st = .ok ((h.readAt st.pos).2,
      { st with
          pos := st.pos + 1
          frameCount := st.frameCount + (if (h.readAt st.pos).2 = none then 0 else 1)
          isOpenFlag := (h.readAt st.pos).1 }) := by
    rw [read_frame, hs]
  rw [habs] at hread0
  have hinj := Except.ok.inj hread0
  have hfn : (none : Option Frame) = (h.readAt st.pos).2 :=
    congrArg Prod.fst hinj
  have hst1 : st1 = { st with
      pos := st.pos + 1
      frameCount := st.frameCount + (if (h.readAt st.pos).2 = none then 0 else 1)
      isOpenFlag := (h.readAt st.pos).1 } :=
    congrArg Prod.snd hinj
  have h0 : h.readAt st.pos = (false, none) :=
    heos st.pos st.pos (Nat.le_refl _) hfn.symm
  have hc1 : closedAtEos st1 h := by
    rw [hst1]
    refine ⟨hs, ?_, fun k hk => heos st.pos k (Nat.le_trans (Nat.le_succ st.pos) hk) hfn.symm⟩
    show (h.readAt st.pos).1 = false
    rw [h0]
  refine ⟨is_open_false_of_closed st1 h hc1, fun ops => ?_⟩
  obtain ⟨st2, hrr, hfc, hc2⟩ := runReads_closed h ops st1 hc1
  exact ⟨st2, hrr, hfc, is_open_false_of_closed st2 h hc2⟩

/-- C2 witness: on an adapter whose backend is at end of stream, after the
first absent `read_frame` the adapter is closed and a frame read followed by
a batch read both return absent with `frame_count` unchanged. -/
theorem c2_witness :
    is_open eosSt1 = .ok false ∧
    (∃ st2, runReads [ReadOp.frame, ReadOp.batch] eosSt1 =
        .ok (List.replicate 2 false, st2) ∧
      st2.frameCount = eosSt1.frameCount ∧ is_open st2 = .ok false) :=
  ⟨(c2_amended_eos_closure eosSt0 eosSt1 eosHandle rfl (fun _ _ _ _ => rfl) rfl).1,
   (c2_amended_eos_closure eosSt0 eosSt1 eosHandle rfl (fun _ _ _ _ => rfl) rfl).2
     [ReadOp.frame, ReadOp.batch]⟩

theorem read_frame_count (st : ReaderState) (f : Option Frame) (st' : ReaderState)
    (hrf : read_frame st = .ok (f, st')) :
    st'.frameCount = st.frameCount + (if f = none then 0 else 1) := by
  cases hv : st.videoStream with
  | none =>
    rw [read_frame, hv] at hrf
    exact Except.noConfusion hrf
  | some h =>
    have hread0 : read_frame st = .ok ((h.readAt st.pos).2,
        { st with
            pos := st.pos + 1
            frameCount := st.frameCount + (if (h.readAt st.pos).2 = none then 0 else 1)
            isOpenFlag := (h.readAt st.pos).1 }) := by
      rw [read_frame, hv]
    rw [hrf] at hread0
    have hinj := Except.ok.inj hread0
    have hf : f = (h.readAt st.pos).2 := congrArg Prod.fst hinj
    have hst : st' = { st with
        pos := st.pos + 1
        frameCount := st.frameCount + (if (h.readAt st.pos).2 = none then 0 else 1)
        isOpenFlag := (h.readAt st.pos).1 } := congrArg Prod.snd hinj
    rw [hst, hf]

theorem read_frame_count_le (st : ReaderState) (f : Option Frame) (st' : ReaderState)
    (hrf : read_frame st = .ok (f, st')) : st.frameCount ≤ st'.frameCount := by
  rw [read_frame_count st f st' hrf]
  exact Nat.le_add_right _ _

theorem fill_loop_count_le : ∀ (r : Nat) (st : ReaderState) (batch : List Frame)
    (i : Nat) (out : Option Int × List Frame × ReaderState),
    fill_loop st batch i r = .ok out → st.frameCount ≤ out.2.2.frameCount := by
  intro r
  induction r with
  | zero =>
    intro st batch i out hfl
    rw [fill_loop] at hfl
    have := Except.ok.inj hfl
    rw [← this]
  | succ r ih =>
    intro st batch i out hfl
    cases hv : st.videoStream with
    | none =>
      rw [fill_loop, read_frame, hv] at hfl
      exact Except.noConfusion hfl
    | some h =>
      have hread0 : read_frame st = .ok ((h.readAt st.pos).2,
          { st with
              pos := st.pos + 1
              frameCount := st.frameCount + (if (h.readAt st.pos).2 = none then 0 else 1)
              isOpenFlag := (h.readAt st.pos).1 }) := by
        rw [read_frame, hv]
      cases hr2 : (h.readAt st.pos).2 with
      | none =>
        rw [hr2] at hread0
        rw [fill_loop_none st _ batch i r hread0] at hfl
        have := Except.ok.inj hfl
        rw [← this]
        exact Nat.le_refl _
      | some f =>
        rw [hr2] at hread0
        rw [fill_loop_some st _ batch i r f hread0] at hfl
        have h2 : st.frameCount + 1 ≤ out.2.2.frameCount := ih _ _ _ _ hfl
        omega

theorem read_batch_count_le (st : ReaderState) (res : Option (List Frame) × ReaderState)
    (hrb : read_batch st = .ok res) : st.frameCount ≤ res.2.frameCount := by
  rw [read_batch] at hrb
  split at hrb
  · exact Except.noConfusion hrb
  · split at hrb
    · have := Except.ok.inj hrb
      rw [← this]
    · split at hrb
      · split at hrb
        · exact Except.noConfusion hrb
        · rename_i iOpt batch' st' hfl
          have hle : st.frameCount ≤ st'.frameCount :=
            fill_loop_count_le _ st _ 0 _ hfl
          split at hrb
          · split at hrb
            · exact Except.noConfusion hrb
            · have := Except.ok.inj hrb
              rw [← this]
              exact hle
          · have := Except.ok.inj hrb
            rw [← this]
            exact hle
      · exact Except.noConfusion hrb

theorem read_count_le (st : ReaderState) (res : PyValue × ReaderState)
    (hr : read st = .ok res) : st.frameCount ≤ res.2.frameCount := by
  cases hbsz : st.batchSize with
  | none =>
    cases hrf : read_frame st with
    | error e =>
      simp only [read, hbsz, hrf] at hr
      exact Except.noConfusion hr
    | ok p =>
      obtain ⟨f, st'⟩ := p
      simp only [read, hbsz, hrf, Except.ok.injEq] at hr
      rw [← hr]
      exact read_frame_count_le st f st' hrf
  | some bs =>
    cases hrb : read_batch st with
    | error e =>
      simp only [read, hbsz, hrb] at hr
      exact Except.noConfusion hr
    | ok p =>
      obtain ⟨b, st'⟩ := p
      simp only [read, hbsz, hrb, Except.ok.injEq] at hr
      rw [← hr]
      exact read_batch_count_le st (b, st') hrb

theorem nextF_count_le (st : ReaderState) (res : Option PyValue × ReaderState)
    (hn : nextF st = .ok res) : st.frameCount ≤ res.2.frameCount := by
  cases hr : read st with
  | error e =>
    rw [nextF, hr] at hn
    exact Except.noConfusion hn
  | ok p =>
    obtain ⟨v, st'⟩ := p
    have hle := read_count_le st (v, st') hr
    cases v <;> simp only [nextF, hr, Except.ok.injEq] at hn <;> rw [← hn] <;> exact hle

/-- C6: `frame_count` is 0 on every freshly constructed adapter, each
`read_frame` adds exactly 1 when it returns a frame and 0 when it returns
absent, and no adapter operation (frame read, batch read, `read`, `__next__`,
`release`, `__del__`) ever decreases it. -/
theorem c6_frame_count :
    (∀ be p b d w hh st tr, init be p b d w hh = (.ok st, tr) → st.frameCount = 0) ∧
    (∀ st f st', read_frame st = .ok (f, st') →
      st'.frameCount = st.frameCount + (if f = none then 0 else 1)) ∧
    (∀ op st st', stepOp op st = .ok st' → st.frameCount ≤ st'.frameCount) := by
  refine ⟨?_, read_frame_count, ?_⟩
  · intro be p b d w hh st tr hinit
    cases p with
    | intD n =>
      simp only [init, Prod.mk.injEq] at hinit
      exact Except.noConfusion hinit.1
    | str s =>
      by_cases hgood : extOf s ∈ _EXTENSIONS
      · rw [init_validated be s b d w hh hgood] at hinit
        split at hinit
        · simp only [Prod.mk.injEq] at hinit
          exact Except.noConfusion hinit.1
        · simp only [Prod.mk.injEq, Except.ok.injEq] at hinit
          rw [← hinit.1]
          rfl
      · have hbad : init be (.str s) b d w hh = (.error (.invalidSource, init_props), []) := by
          simp only [init]
          rw [if_pos hgood]
        rw [hbad] at hinit
        simp only [Prod.mk.injEq] at hinit
        exact Except.noConfusion hinit.1
  · intro op st st' hst
    cases op with
    | opReadFrame =>
      cases hrf : read_frame st with
      | error e =>
        rw [stepOp, hrf] at hst
        exact Except.noConfusion hst
      | ok p =>
        obtain ⟨f, st1⟩ := p
        simp only [stepOp, hrf, Except.ok.injEq] at hst
        rw [← hst]
        exact read_frame_count_le st f st1 hrf
    | opReadBatch =>
      cases hrb : read_batch st with
      | error e =>
        rw [stepOp, hrb] at hst
        exact Except.noConfusion hst
      | ok p =>
        obtain ⟨b, st1⟩ := p
        simp only [stepOp, hrb, Except.ok.injEq] at hst
        rw [← hst]
        exact read_batch_count_le st (b, st1) hrb
    | opRead =>
      cases hr : read st with
      | error e =>
        rw [stepOp, hr] at hst
        exact Except.noConfusion hst
      | ok p =>
        obtain ⟨v, st1⟩ := p
        simp only [stepOp, hr, Except.ok.injEq] at hst
        rw [← hst]
        exact read_count_le st (v, st1) hr
    | opNext =>
      cases hn : nextF st with
      | error e =>
        rw [stepOp, hn] at hst
        exact Except.noConfusion hst
      | ok p =>
        obtain ⟨v, st1⟩ := p
        simp only [stepOp, hn, Except.ok.injEq] at hst
        rw [← hst]
        exact nextF_count_le st (v, st1) hn
    | opRelease =>
      cases hr : release st with
      | error e =>
        rw [stepOp, hr] at hst
        exact Except.noConfusion hst
      | ok u =>
        simp only [stepOp, hr, Except.ok.injEq] at hst
        rw [← hst]
    | opDel =>
      cases hr : release st with
      | error e =>
        rw [stepOp, hr] at hst
        exact Except.noConfusion hst
      | ok u =>
        simp only [stepOp, hr, Except.ok.injEq] at hst
        rw [← hst]

/-- C6 witness: a freshly constructed adapter has `frame_count` 0; a
`read_frame` that returns a frame adds exactly 1; a read step never
decreases the count. -/
theorem c6_witness :
    mirroredSt.frameCount = 0 ∧
    flakySt2.frameCount = flakySt1.frameCount +
      (if (some [7] : Option Frame) = none then 0 else 1) ∧
    flakySt0.frameCount ≤ flakySt1.frameCount :=
  ⟨c6_frame_count.1 demoBackend (.str "a.mp4") none false (some 100) none
      mirroredSt [.openPath "a.mp4", .setWidth 100] rfl,
   c6_frame_count.2.1 flakySt1 (some [7]) flakySt2 rfl,
   c6_frame_count.2.2 AdapterOp.opReadFrame flakySt0 flakySt1 rfl⟩

/-- C8 witness: constructing on the demo backend with `width=100` and no
height yields reported width 100 and reported height 480 (the backend
value). -/
theorem c8_witness :
    mirroredSt.width = some 100 ∧
    mirroredSt.height = some (opened_handle demoBackend "a.mp4").propHeight :=
  ⟨(c8_width_height_mirroring demoBackend "a.mp4" none false (some 100) none
      mirroredSt [.openPath "a.mp4", .setWidth 100] (by rfl)).1 100 rfl,
   (c8_width_height_mirroring demoBackend "a.mp4" none false (some 100) none
      mirroredSt [.openPath "a.mp4", .setWidth 100] (by rfl)).2.2.2 rfl⟩

end VideoReader
